import Mathlib

/-!
Shallow embedding of the marbles transaction processor
(`pyprocessor/processor/marbles_tp.py`) of the sawtooth-simplewallet
repository, together with proofs about the embedded operations.

Python strings are modelled as `List Char` (`Str`); stored state values are
the UTF-8 decoded strings, since every value written by the processor is
`some_string.encode('utf-8')` and UTF-8 encode/decode round-trips.  Python
byte strings handed to the hash are modelled as `List Nat` with entries
below 256.  Machine words inside SHA-512 are `Nat` reduced modulo `2 ^ 64`
at every arithmetic step.  A raised Python exception is modelled as an
error result (`TxResult.err` / decode errors), carrying which exception was
raised; the hosting framework discards state changes of a raising
transaction, so an error outcome leaves the ledger as it was.
-/

/-- Python `str` values, as lists of characters. -/
abbrev Str := List Char

/-- Shorthand for writing `Str` constants from Lean string literals. -/
def strOf (s : String) : Str := s.toList

/-- Prepend a character onto the first field of a field list. -/
def consField (c : Char) : List Str → List Str
  | [] => [[c]]
  | g :: gs => (c :: g) :: gs

/-- Python `str.split(",")` on a one-character separator: always returns at
least one (possibly empty) field; adjacent separators yield empty fields. -/
def splitComma : Str → List Str
  | [] => [[]]
  | c :: rest =>
    if c = ',' then [] :: splitComma rest else consField c (splitComma rest)

/-- Python `",".join(parts)`. -/
def joinComma : List Str → Str
  | [] => []
  | [g] => g
  | g :: gs => g ++ ',' :: joinComma gs

/-- The six characters Python `str.strip()` (and `int(str)`) treat as ASCII
whitespace. -/
def isPyWs (c : Char) : Bool :=
  c = ' ' || c = '\t' || c = '\n' || c = '\r' || c = '\x0b' || c = '\x0c'

/-- Strip leading and trailing whitespace, as Python `int(str)` does before
parsing. -/
def stripWs (s : Str) : Str :=
  ((s.dropWhile isPyWs).reverse.dropWhile isPyWs).reverse

/-- Numeric value of a list of decimal digit characters. -/
def digitsVal (ds : Str) : Nat :=
  ds.foldl (fun a c => 10 * a + (c.toNat - 48)) 0

/-- A nonempty all-decimal-digit string. -/
def allDigits (ds : Str) : Bool := !ds.isEmpty && ds.all Char.isDigit

/-- Python `int(str)` after whitespace stripping: an optional single sign
followed by at least one decimal digit (leading zeros allowed).  Python
additionally accepts underscore digit-group separators and non-ASCII
digits; neither occurs in any input relevant here and both are omitted. -/
def pyIntCore : Str → Option Int
  | '+' :: ds => if allDigits ds then some (digitsVal ds) else none
  | '-' :: ds => if allDigits ds then some (-(digitsVal ds : Int)) else none
  | ds => if allDigits ds then some (digitsVal ds) else none

/-- Python `int(s)` for a string `s`: `none` models a raised `ValueError`. -/
def pyInt (s : Str) : Option Int := pyIntCore (stripWs s)

/-- Decimal digit characters of `n`, accumulator style; `fuel` bounds the
recursion and any `fuel > n` is enough. -/
def natToDigitsAux : Nat → Nat → Str → Str
  | 0, _, acc => acc
  | fuel + 1, n, acc =>
    if n < 10 then Char.ofNat (48 + n) :: acc
    else natToDigitsAux fuel (n / 10) (Char.ofNat (48 + n % 10) :: acc)

/-- Canonical decimal rendering of a natural number (`"0"` for zero). -/
def natToStr (n : Nat) : Str := natToDigitsAux (n + 1) n []

/-- Python `str(i)` for an integer `i`: canonical decimal, a leading `-`
for negatives, no `+` for positives. -/
def intToStr : Int → Str
  | .ofNat n => natToStr n
  | .negSucc m => '-' :: natToStr (m + 1)

/-! ## SHA-512 (`hashlib.sha512(...).hexdigest()`) -/

/-- `2 ^ 64`, the word modulus of SHA-512. -/
def w64 : Nat := 18446744073709551616

/-- All-ones 64-bit mask, for bitwise complement. -/
def mask64 : Nat := 18446744073709551615

/-- Right-rotation of a 64-bit word by `k` places (`0 < k < 64`). -/
def rotr (k x : Nat) : Nat := x / 2 ^ k + x % 2 ^ k * 2 ^ (64 - k)

/-- SHA-512 big Sigma-0. -/
def bsig0 (x : Nat) : Nat := rotr 28 x ^^^ rotr 34 x ^^^ rotr 39 x

/-- SHA-512 big Sigma-1. -/
def bsig1 (x : Nat) : Nat := rotr 14 x ^^^ rotr 18 x ^^^ rotr 41 x

/-- SHA-512 small sigma-0. -/
def ssig0 (x : Nat) : Nat := rotr 1 x ^^^ rotr 8 x ^^^ x / 2 ^ 7

/-- SHA-512 small sigma-1. -/
def ssig1 (x : Nat) : Nat := rotr 19 x ^^^ rotr 61 x ^^^ x / 2 ^ 6

/-- SHA-2 choice function. -/
def chF (e f g : Nat) : Nat := (e &&& f) ^^^ ((e ^^^ mask64) &&& g)

/-- SHA-2 majority function. -/
def majF (a b c : Nat) : Nat := (a &&& b) ^^^ (a &&& c) ^^^ (b &&& c)

/-- The 80 SHA-512 round constants. -/
def K512 : List Nat :=
  [4794697086780616226, 8158064640168781261, 13096744586834688815,
   16840607885511220156, 4131703408338449720, 6480981068601479193,
   10538285296894168987, 12329834152419229976, 15566598209576043074,
   1334009975649890238, 2608012711638119052, 6128411473006802146,
   8268148722764581231, 9286055187155687089, 11230858885718282805,
   13951009754708518548, 16472876342353939154, 17275323862435702243,
   1135362057144423861, 2597628984639134821, 3308224258029322869,
   5365058923640841347, 6679025012923562964, 8573033837759648693,
   10970295158949994411, 12119686244451234320, 12683024718118986047,
   13788192230050041572, 14330467153632333762, 15395433587784984357,
   489312712824947311, 1452737877330783856, 2861767655752347644,
   3322285676063803686, 5560940570517711597, 5996557281743188959,
   7280758554555802590, 8532644243296465576, 9350256976987008742,
   10552545826968843579, 11727347734174303076, 12113106623233404929,
   14000437183269869457, 14369950271660146224, 15101387698204529176,
   15463397548674623760, 17586052441742319658, 1182934255886127544,
   1847814050463011016, 2177327727835720531, 2830643537854262169,
   3796741975233480872, 4115178125766777443, 5681478168544905931,
   6601373596472566643, 7507060721942968483, 8399075790359081724,
   8693463985226723168, 9568029438360202098, 10144078919501101548,
   10430055236837252648, 11840083180663258601, 13761210420658862357,
   14299343276471374635, 14566680578165727644, 15097957966210449927,
   16922976911328602910, 17689382322260857208, 500013540394364858,
   748580250866718886, 1242879168328830382, 1977374033974150939,
   2944078676154940804, 3659926193048069267, 4368137639120453308,
   4836135668995329356, 5532061633213252278, 6448918945643986474,
   6902733635092675308, 7801388544844847127]

/-- The state of the SHA-512 compression function: eight 64-bit words. -/
structure Hash8 where
  a : Nat
  b : Nat
  c : Nat
  d : Nat
  e : Nat
  f : Nat
  g : Nat
  h : Nat
deriving DecidableEq, Repr

/-- The SHA-512 initial hash value. -/
def initH : Hash8 :=
  ⟨7640891576956012808, 13503953896175478587, 4354685564936845355,
   11912009170470909681, 5840696475078001361, 11170449401992604703,
   2270897969802886507, 6620516959819538809⟩

/-- `k` bytes of `n`, big-endian. -/
def beBytes : Nat → Nat → List Nat
  | 0, _ => []
  | k + 1, n => beBytes k (n / 256) ++ [n % 256]

/-- SHA-512 padding: append `0x80`, zero bytes up to 112 mod 128, then the
message bit length as a 16-byte big-endian integer. -/
def sha512Pad (msg : List Nat) : List Nat :=
  msg ++ 0x80 :: List.replicate ((239 - msg.length % 128) % 128) 0
      ++ beBytes 16 (8 * msg.length)

/-- Group a byte list into big-endian 64-bit words (eight bytes each). -/
def toWords : List Nat → List Nat
  | b0 :: b1 :: b2 :: b3 :: b4 :: b5 :: b6 :: b7 :: rest =>
    (((((((b0 * 256 + b1) * 256 + b2) * 256 + b3) * 256 + b4) * 256 + b5)
        * 256 + b6) * 256 + b7) :: toWords rest
  | _ => []

/-- Split a byte list into 128-byte blocks; `fuel` bounds the recursion. -/
def toBlocksAux : Nat → List Nat → List (List Nat)
  | 0, _ => []
  | _ + 1, [] => []
  | fuel + 1, l => l.take 128 :: toBlocksAux fuel (l.drop 128)

/-- Split a (padded) byte list into 128-byte blocks. -/
def toBlocks (l : List Nat) : List (List Nat) := toBlocksAux l.length l

/-- Extend a 16-word message schedule by `fuel` further words. -/
def extendSchedule : Nat → List Nat → List Nat
  | 0, w => w
  | fuel + 1, w =>
    let t := w.length
    extendSchedule fuel (w ++
      [(ssig1 (w.getD (t - 2) 0) + w.getD (t - 7) 0
          + ssig0 (w.getD (t - 15) 0) + w.getD (t - 16) 0) % w64])

/-- The 80-word SHA-512 message schedule of a block. -/
def schedule (w16 : List Nat) : List Nat := extendSchedule 64 w16

/-- One SHA-512 round, consuming a (round constant, schedule word) pair. -/
def shaRound (st : Hash8) (kw : Nat × Nat) : Hash8 :=
  let t1 := (st.h + bsig1 st.e + chF st.e st.f st.g + kw.1 + kw.2) % w64
  let t2 := (bsig0 st.a + majF st.a st.b st.c) % w64
  ⟨(t1 + t2) % w64, st.a, st.b, st.c, (st.d + t1) % w64, st.e, st.f, st.g⟩

/-- The SHA-512 compression function on one 128-byte block. -/
def compress (hv : Hash8) (block : List Nat) : Hash8 :=
  let st := (K512.zip (schedule (toWords block))).foldl shaRound hv
  ⟨(hv.a + st.a) % w64, (hv.b + st.b) % w64, (hv.c + st.c) % w64,
   (hv.d + st.d) % w64, (hv.e + st.e) % w64, (hv.f + st.f) % w64,
   (hv.g + st.g) % w64, (hv.h + st.h) % w64⟩

/-- The eight final SHA-512 hash words of a byte message. -/
def sha512Words (msg : List Nat) : Hash8 :=
  (toBlocks (sha512Pad msg)).foldl compress initH

/-- Lower-case hex digit for a value below 16. -/
def hexDigit (n : Nat) : Char :=
  if n < 10 then Char.ofNat (48 + n) else Char.ofNat (87 + n)

/-- The 16 hex characters of a 64-bit word, most significant first. -/
def wordHex (n : Nat) : Str :=
  (List.range 16).map fun i => hexDigit (n / 16 ^ (15 - i) % 16)

/-- `hashlib.sha512(msg).hexdigest()`: 128 lower-case hex characters. -/
def sha512Hex (msg : List Nat) : Str :=
  let hv := sha512Words msg
  wordHex hv.a ++ wordHex hv.b ++ wordHex hv.c ++ wordHex hv.d
    ++ wordHex hv.e ++ wordHex hv.f ++ wordHex hv.g ++ wordHex hv.h

/-- UTF-8 bytes of one character. -/
def utf8Bytes (c : Char) : List Nat :=
  let n := c.toNat
  if n < 0x80 then [n]
  else if n < 0x800 then [0xc0 + n / 0x40, 0x80 + n % 0x40]
  else if n < 0x10000 then
    [0xe0 + n / 0x1000, 0x80 + n / 0x40 % 0x40, 0x80 + n % 0x40]
  else
    [0xf0 + n / 0x40000, 0x80 + n / 0x1000 % 0x40, 0x80 + n / 0x40 % 0x40,
     0x80 + n % 0x40]

/-- Python `s.encode('utf-8')`. -/
def utf8Encode (s : Str) : List Nat := (s.map utf8Bytes).flatten

/-- `_hash(data)`: SHA-512 hex digest of a byte string. -/
def sha512_hexdigest (data : List Nat) : Str := sha512Hex data

/-- `FAMILY_NAME = "marbles"`. -/
def FAMILY_NAME : Str := strOf "marbles"

/-- `_get_marble_address(from_key)`: the 6-hex-character family prefix
followed by the first 64 hex characters of the SHA-512 digest of the
entity name. -/
def get_marble_address (from_key : Str) : Str :=
  (sha512_hexdigest (utf8Encode FAMILY_NAME)).take 6
    ++ (sha512_hexdigest (utf8Encode from_key)).take 64

/-! ## Data model and ledger state -/

/-- The Python exceptions the processor can raise: the two Sawtooth SDK
exception classes, plus the builtin exceptions `ValueError` (from `int()`)
and `IndexError` (from indexing an empty argument list). -/
inductive PyErr where
  | invalidTransaction : Str → PyErr
  | internalError : Str → PyErr
  | valueError : PyErr
  | indexError : PyErr
deriving DecidableEq, Repr

/-- The persisted record type (`class Marble`). -/
structure Marble where
  name : Str
  color : Str
  size : Int
  owner : Str
deriving DecidableEq, Repr

/-- `Marble.__init__(self, args)`: requires exactly 4 fields, parses the
size with `int()` (a parse failure raises `ValueError`). -/
def Marble.ofArgs (args : List Str) : Except PyErr Marble :=
  match args with
  | [n, c, s, o] =>
    match pyInt s with
    | some v => .ok ⟨n, c, v, o⟩
    | none => .error .valueError
  | _ => .error (.invalidTransaction (strOf "Invalid number of args"))

/-- `Marble.to_string(self)`: comma-join name, color, `str(size)`, owner. -/
def Marble.to_string (m : Marble) : Str :=
  joinComma [m.name, m.color, intToStr m.size, m.owner]

/-- Ledger state visible through the transaction context: an association
list from addresses to the (UTF-8 decoded) stored byte strings. -/
abbrev Ledger := List (Str × Str)

/-- Look an address up in the ledger. -/
def lookupL : Ledger → Str → Option Str
  | [], _ => none
  | (k, v) :: rest, a => if k = a then some v else lookupL rest a

/-- `context.get_state([a])`: the list of entries found (empty when the
address holds no data). -/
def getStateL (l : Ledger) (a : Str) : List Str :=
  match lookupL l a with
  | some v => [v]
  | none => []

/-- The ledger after `context.set_state({a: v})`: overwrite or append. -/
def setStateL : Ledger → Str → Str → Ledger
  | [], a, v => [(a, v)]
  | (k, w) :: rest, a, v =>
    if k = a then (a, v) :: rest else (k, w) :: setStateL rest a v

/-- The ledger after `context.delete_state([a])`. -/
def deleteStateL : Ledger → Str → Ledger
  | [], _ => []
  | (k, w) :: rest, a =>
    if k = a then deleteStateL rest a else (k, w) :: deleteStateL rest a

/-- Outcome of applying one operation: the new ledger, or the raised
exception (in which case the hosting framework discards any writes). -/
inductive TxResult where
  | ok : Ledger → TxResult
  | err : PyErr → TxResult
deriving DecidableEq, Repr

/-- Observable effect of a result computed from ledger `l`: the ledger
actually in force afterwards and the raised exception, if any.  A raising
transaction is rejected by the framework, so the ledger stays `l`. -/
def runTx (l : Ledger) : TxResult → Ledger × Option PyErr
  | .ok l2 => (l2, none)
  | .err e => (l, some e)

/-! ## The operations

Each operation takes a `reportOk` flag modelling whether the host state
layer reports the write/delete it was asked to do: `context.set_state` and
`context.delete_state` return the list of addresses actually written or
removed, and a faulty host is modelled by `reportOk = false`, making that
report come back empty. -/

/-- `_init_marble(context, args)`.  Note the source performs no argument
count validation here: `args[0]` raises `IndexError` on an empty list, and
any other argument list proceeds. -/
def init_marble (reportOk : Bool) (l : Ledger) (args : List Str) : TxResult :=
  match args with
  | [] => .err .indexError
  | key :: _ =>
    let marble_address := get_marble_address key
    let current_entry := getStateL l marble_address
    if current_entry ≠ [] then
      .err (.invalidTransaction (strOf "Marble already exists"))
    else
      let state_data := joinComma args
      let l2 := setStateL l marble_address state_data
      let addresses : List Str := if reportOk then [marble_address] else []
      if addresses.length < 1 then .err (.internalError (strOf "State Error"))
      else .ok l2

/-- `_delete_marble(context, args)`. -/
def delete_marble (reportOk : Bool) (l : Ledger) (args : List Str) : TxResult :=
  if args.length ≠ 1 then
    .err (.invalidTransaction (strOf "Invalid number of args"))
  else
    match args with
    | [] => .err .indexError
    | key :: _ =>
      let marble_address := get_marble_address key
      let marble := getStateL l marble_address
      if marble = [] then .ok l
      else
        let l2 := deleteStateL l marble_address
        let addresses : List Str := if reportOk then [marble_address] else []
        if addresses.length < 1 then
          .err (.internalError (strOf "State Error"))
        else .ok l2

/-- `_transfer_marble(context, args)`.  The result of `context.set_state`
is discarded by the source, so `reportOk` is unused here. -/
def transfer_marble (reportOk : Bool) (l : Ledger) (args : List Str) :
    TxResult :=
  if args.length ≠ 2 then
    .err (.invalidTransaction (strOf "Invalid number of args"))
  else
    match args with
    | key :: to_person :: _ =>
      let marble_address := get_marble_address key
      match getStateL l marble_address with
      | [] => .err (.invalidTransaction (strOf "Marble does not exist"))
      | entry :: _ =>
        match Marble.ofArgs (splitComma entry) with
        | .error e => .err e
        | .ok m =>
          let m2 : Marble := { m with owner := to_person }
          .ok (setStateL l marble_address m2.to_string)
    | _ => .err .indexError

/-- `MarblesTransactionHandler.apply`: split the payload on commas, take
the first field as the operation tag and the rest as arguments, dispatch;
an unrecognized tag is logged and ignored. -/
def applyTx (reportOk : Bool) (l : Ledger) (payload : Str) : TxResult :=
  match splitComma payload with
  | [] => .err .indexError
  | operation :: args =>
    if operation = strOf "initMarble" then init_marble reportOk l args
    else if operation = strOf "deleteMarble" then delete_marble reportOk l args
    else if operation = strOf "transferMarble" then
      transfer_marble reportOk l args
    else .ok l

/-- Outcome of the read query. -/
inductive ReadResult where
  | found : Marble → ReadResult
  | notFound : ReadResult
  | err : PyErr → ReadResult
deriving DecidableEq, Repr

/-- Modelled from the spec: the read operation is implemented by the client
class (`marbles_client.py`, which is not under `src/`; only its caller
`marbles_cli.py` is).  Per the spec, read "fetches and returns the decoded
record, or signals not found", querying ledger state at the derived
address outside the transaction-application path; the decoder is the
source's `Marble` constructor. -/
def read_marble (l : Ledger) (key : Str) : ReadResult :=
  match getStateL l (get_marble_address key) with
  | [] => .notFound
  | entry :: _ =>
    match Marble.ofArgs (splitComma entry) with
    | .error e => .err e
    | .ok m => .found m

/-! ## Lemmas about splitting and joining -/

theorem splitComma_ne_nil (s : Str) : splitComma s ≠ [] := by
  cases s with
  | nil => simp [splitComma]
  | cons c rest =>
    simp only [splitComma]
    by_cases hc : c = ','
    · simp [hc]
    · rw [if_neg hc]
      cases splitComma rest <;> simp [consField]

theorem joinComma_consField (c : Char) (gs : List Str) (h : gs ≠ []) :
    joinComma (consField c gs) = c :: joinComma gs := by
  match gs with
  | [] => exact absurd rfl h
  | [g] => simp [consField, joinComma]
  | g :: g2 :: gs => simp [consField, joinComma]

theorem joinComma_splitComma (s : Str) : joinComma (splitComma s) = s := by
  induction s with
  | nil => simp [splitComma, joinComma]
  | cons c rest ih =>
    simp only [splitComma]
    by_cases hc : c = ','
    · rw [if_pos hc, hc]
      cases h : splitComma rest with
      | nil => exact absurd h (splitComma_ne_nil rest)
      | cons g gs =>
        show ',' :: joinComma (g :: gs) = ',' :: rest
        rw [← h, ih]
    · rw [if_neg hc, joinComma_consField c _ (splitComma_ne_nil rest), ih]

theorem splitComma_of_no_comma (s : Str) (h : ',' ∉ s) : splitComma s = [s] := by
  induction s with
  | nil => simp [splitComma]
  | cons c rest ih =>
    simp only [List.mem_cons, not_or] at h
    rw [splitComma, if_neg (Ne.symm h.1), ih h.2]
    simp [consField]

theorem splitComma_append (a rest : Str) (h : ',' ∉ a) :
    splitComma (a ++ ',' :: rest) = a :: splitComma rest := by
  induction a with
  | nil =>
    rw [List.nil_append, splitComma, if_pos rfl]
  | cons x xs ih =>
    simp only [List.mem_cons, not_or] at h
    rw [List.cons_append, splitComma, if_neg (Ne.symm h.1), ih h.2]
    simp [consField]

theorem no_comma_of_mem_splitComma (s : Str) (g : Str)
    (hg : g ∈ splitComma s) : ',' ∉ g := by
  induction s generalizing g with
  | nil =>
    simp only [splitComma, List.mem_singleton] at hg
    subst hg; simp
  | cons c rest ih =>
    simp only [splitComma] at hg
    by_cases hc : c = ','
    · rw [if_pos hc] at hg
      rcases List.mem_cons.mp hg with hg2 | hg2
      · subst hg2; simp
      · exact ih g hg2
    · rw [if_neg hc] at hg
      cases h : splitComma rest with
      | nil => exact absurd h (splitComma_ne_nil rest)
      | cons g0 gs =>
        rw [h] at hg
        simp only [consField, List.mem_cons] at hg
        rcases hg with hg | hg
        · subst hg
          intro hmem
          rcases List.mem_cons.mp hmem with hmem2 | hmem2
          · exact hc hmem2.symm
          · exact ih g0 (h ▸ List.mem_cons_self g0 gs) hmem2
        · exact ih g (h ▸ List.mem_cons_of_mem g0 hg)

/-! ## Lemmas about the ledger operations -/

theorem lookupL_setStateL_self (l : Ledger) (a v : Str) :
    lookupL (setStateL l a v) a = some v := by
  induction l with
  | nil => simp [setStateL, lookupL]
  | cons kv rest ih =>
    obtain ⟨k, w⟩ := kv
    by_cases hk : k = a <;> simp [setStateL, lookupL, hk, ih]

theorem lookupL_setStateL_ne (l : Ledger) (a v b : Str) (h : b ≠ a) :
    lookupL (setStateL l a v) b = lookupL l b := by
  induction l with
  | nil => simp [setStateL, lookupL, Ne.symm h]
  | cons kv rest ih =>
    obtain ⟨k, w⟩ := kv
    by_cases hk : k = a
    · subst hk
      simp [setStateL, lookupL, Ne.symm h]
    · simp [setStateL, lookupL, hk, ih]

theorem lookupL_deleteStateL_self (l : Ledger) (a : Str) :
    lookupL (deleteStateL l a) a = none := by
  induction l with
  | nil => simp [deleteStateL, lookupL]
  | cons kv rest ih =>
    obtain ⟨k, w⟩ := kv
    by_cases hk : k = a <;> simp [deleteStateL, lookupL, hk, ih]

theorem getStateL_setStateL_self (l : Ledger) (a v : Str) :
    getStateL (setStateL l a v) a = [v] := by
  simp [getStateL, lookupL_setStateL_self]

theorem getStateL_deleteStateL_self (l : Ledger) (a : Str) :
    getStateL (deleteStateL l a) a = [] := by
  simp [getStateL, lookupL_deleteStateL_self]

/-! ## Lemmas about the hash digest -/

theorem wordHex_length (n : Nat) : (wordHex n).length = 16 := by
  simp [wordHex]

theorem sha512Hex_length (msg : List Nat) : (sha512Hex msg).length = 128 := by
  simp [sha512Hex, wordHex_length]

theorem get_marble_address_length (key : Str) :
    (get_marble_address key).length = 70 := by
  simp [get_marble_address, sha512_hexdigest, sha512Hex_length]

/-- The record decoder never raises `InternalError`: its failures are the
`InvalidTransaction` arity error and `ValueError`. -/
theorem Marble.ofArgs_ne_internal (args : List Str) (msg : Str) :
    Marble.ofArgs args ≠ .error (.internalError msg) := by
  match args with
  | [] => simp [Marble.ofArgs]
  | [a] => simp [Marble.ofArgs]
  | [a, b] => simp [Marble.ofArgs]
  | [a, b, c] => simp [Marble.ofArgs]
  | [a, b, c, d] =>
    simp only [Marble.ofArgs]
    cases pyInt c <;> simp
  | a :: b :: c :: d :: e :: rest => simp [Marble.ofArgs]

/-- Decidable equality for `Except`, for evaluating concrete outcomes. -/
instance {e a : Type} [DecidableEq e] [DecidableEq a] :
    DecidableEq (Except e a) := fun x y =>
  match x, y with
  | .error u, .error w =>
    if h : u = w then isTrue (by rw [h]) else isFalse (by simp [h])
  | .ok u, .ok w =>
    if h : u = w then isTrue (by rw [h]) else isFalse (by simp [h])
  | .error _, .ok _ => isFalse (by simp)
  | .ok _, .error _ => isFalse (by simp)

/-! ## The claims -/

/-- C7: for every entity name, the derived storage address is the first 6
hex characters of the SHA-512 hex digest of the family name followed by
the first 64 hex characters of the SHA-512 hex digest of the entity name;
the derivation is a pure function (a Lean `def`, hence deterministic and
stable across calls) and the address always has the fixed length 70. -/
theorem address_derivation (key : Str) :
    get_marble_address key
        = (sha512Hex (utf8Encode (strOf "marbles"))).take 6
          ++ (sha512Hex (utf8Encode key)).take 64
      ∧ (get_marble_address key).length = 70 :=
  ⟨rfl, get_marble_address_length key⟩

/-- C9: a payload whose operation tag is none of `initMarble`,
`deleteMarble`, `transferMarble` is ignored: applying it raises no error
and leaves the ledger unchanged. -/
theorem unknown_operation_ignored (reportOk : Bool) (l : Ledger)
    (payload : Str)
    (h1 : (splitComma payload).headD [] ≠ strOf "initMarble")
    (h2 : (splitComma payload).headD [] ≠ strOf "deleteMarble")
    (h3 : (splitComma payload).headD [] ≠ strOf "transferMarble") :
    runTx l (applyTx reportOk l payload) = (l, none) := by
  cases h : splitComma payload with
  | nil => exact absurd h (splitComma_ne_nil payload)
  | cons op args =>
    rw [h] at h1 h2 h3
    simp only [List.headD_cons] at h1 h2 h3
    simp [applyTx, h, h1, h2, h3, runTx]

/-- Witness for C9 at the concrete payload `"fooOp,x"`. -/
theorem unknown_operation_ignored_witness :
    runTx [] (applyTx true [] (strOf "fooOp,x")) = ([], none) :=
  unknown_operation_ignored true [] (strOf "fooOp,x")
    (by decide) (by decide) (by decide)

/-- C5: transferring a name with no record at its derived address fails
with the `Marble does not exist` `InvalidTransaction` and leaves all
ledger state unchanged. -/
theorem transfer_nonexistent_fails (reportOk : Bool) (l : Ledger)
    (key owner2 : Str)
    (h : getStateL l (get_marble_address key) = []) :
    runTx l (transfer_marble reportOk l [key, owner2])
      = (l, some (.invalidTransaction (strOf "Marble does not exist"))) := by
  simp [transfer_marble, h, runTx]

/-- Witness for C5 on the empty ledger. -/
theorem transfer_nonexistent_fails_witness :
    runTx [] (transfer_marble true [] [strOf "m", strOf "bob"])
      = ([], some (.invalidTransaction (strOf "Marble does not exist"))) :=
  transfer_nonexistent_fails true [] (strOf "m") (strOf "bob") rfl

/-- C6: deleting a name with no record at its derived address succeeds
silently with no state change, and delete is idempotent: running it a
second time yields exactly the state and outcome of running it once. -/
theorem delete_idempotent (reportOk : Bool) (l : Ledger) (key : Str) :
    (getStateL l (get_marble_address key) = [] →
      delete_marble reportOk l [key] = .ok l)
    ∧ runTx (runTx l (delete_marble reportOk l [key])).1
        (delete_marble reportOk
          (runTx l (delete_marble reportOk l [key])).1 [key])
      = runTx l (delete_marble reportOk l [key]) := by
  constructor
  · intro h
    simp [delete_marble, h]
  · cases hg : getStateL l (get_marble_address key) with
    | nil =>
      have hd : delete_marble reportOk l [key] = .ok l := by
        simp [delete_marble, hg]
      rw [hd]
      simp [runTx, hd]
    | cons e es =>
      cases reportOk with
      | true =>
        have hd : delete_marble true l [key]
            = .ok (deleteStateL l (get_marble_address key)) := by
          simp [delete_marble, hg]
        have hd2 : delete_marble true
            (deleteStateL l (get_marble_address key)) [key]
            = .ok (deleteStateL l (get_marble_address key)) := by
          simp [delete_marble, getStateL_deleteStateL_self]
        rw [hd]
        simp [runTx, hd2]
      | false =>
        have hd : delete_marble false l [key]
            = .err (.internalError (strOf "State Error")) := by
          simp [delete_marble, hg]
        rw [hd]
        simp [runTx, hd]

/-- Witness for C6 on the empty ledger and the name `"m"`. -/
theorem delete_idempotent_witness :
    delete_marble true [] [strOf "m"] = .ok []
    ∧ runTx (runTx [] (delete_marble true [] [strOf "m"])).1
        (delete_marble true
          (runTx [] (delete_marble true [] [strOf "m"])).1 [strOf "m"])
      = runTx [] (delete_marble true [] [strOf "m"]) :=
  ⟨(delete_idempotent true [] (strOf "m")).1 rfl,
   (delete_idempotent true [] (strOf "m")).2⟩

/-- C4: if an init succeeds, a second init with the same arguments (hence
the same name, so the same derived address) fails with the
`Marble already exists` `InvalidTransaction`, and the ledger after the
failed second call is exactly the ledger after the first call. -/
theorem init_twice_duplicate (r1 r2 : Bool) (l l2 : Ledger)
    (args : List Str)
    (h : init_marble r1 l args = .ok l2) :
    runTx l2 (init_marble r2 l2 args)
      = (l2, some (.invalidTransaction (strOf "Marble already exists"))) := by
  match args with
  | [] => simp [init_marble] at h
  | key :: rest =>
    simp only [init_marble] at h
    by_cases hg : getStateL l (get_marble_address key) = []
    · rw [if_neg (by simp [hg])] at h
      cases r1 with
      | false => simp at h
      | true =>
        simp only [List.length_cons, List.length_nil] at h
        rw [if_neg (by norm_num)] at h
        injection h with h2
        subst h2
        simp [init_marble, runTx, getStateL_setStateL_self]
    · rw [if_pos hg] at h
      exact absurd h (by simp)

/-- Witness for C4: a successful init of `("m", "red", "5", "alice")` on
the empty ledger, followed by the same init again. -/
theorem init_twice_duplicate_witness :
    runTx
        (setStateL [] (get_marble_address (strOf "m"))
          (joinComma [strOf "m", strOf "red", strOf "5", strOf "alice"]))
        (init_marble true
          (setStateL [] (get_marble_address (strOf "m"))
            (joinComma [strOf "m", strOf "red", strOf "5", strOf "alice"]))
          [strOf "m", strOf "red", strOf "5", strOf "alice"])
      = (setStateL [] (get_marble_address (strOf "m"))
          (joinComma [strOf "m", strOf "red", strOf "5", strOf "alice"]),
         some (.invalidTransaction (strOf "Marble already exists"))) :=
  init_twice_duplicate true true []
    (setStateL [] (get_marble_address (strOf "m"))
      (joinComma [strOf "m", strOf "red", strOf "5", strOf "alice"]))
    [strOf "m", strOf "red", strOf "5", strOf "alice"] rfl

/-- C10: unlike init and delete, transfer never inspects the result of the
state write: it can never raise `InternalError` (the `StorageError` of the
spec), its outcome does not depend on what the write report says, and on
an existing, decodable record it succeeds even when `set_state` reports
zero addresses written. -/
theorem transfer_ignores_write_report :
    (∀ reportOk l args msg,
        transfer_marble reportOk l args ≠ .err (.internalError msg))
    ∧ (∀ r1 r2 l args, transfer_marble r1 l args = transfer_marble r2 l args)
    ∧ (∀ l key owner2 entry m,
        getStateL l (get_marble_address key) = [entry] →
        Marble.ofArgs (splitComma entry) = .ok m →
        transfer_marble false l [key, owner2]
          = .ok (setStateL l (get_marble_address key)
              (Marble.to_string { m with owner := owner2 }))) := by
  refine ⟨?_, ?_, ?_⟩
  · intro reportOk l args msg h
    match args with
    | [] => simp [transfer_marble] at h
    | [a] => simp [transfer_marble] at h
    | a :: b :: c :: rest => simp [transfer_marble] at h
    | [key, to_person] =>
      simp only [transfer_marble, List.length_cons, List.length_nil] at h
      rw [if_neg (by norm_num)] at h
      cases hg : getStateL l (get_marble_address key) with
      | nil => rw [hg] at h; simp at h
      | cons entry es =>
        rw [hg] at h
        dsimp only at h
        cases ho : Marble.ofArgs (splitComma entry) with
        | error e =>
          rw [ho] at h
          simp only [TxResult.err.injEq] at h
          exact Marble.ofArgs_ne_internal (splitComma entry) msg (h ▸ ho)
        | ok m => rw [ho] at h; simp at h
  · intro r1 r2 l args
    rfl
  · intro l key owner2 entry m hg ho
    simp [transfer_marble, hg, ho]

/-- Witness for C10: a transfer of an existing record succeeds although the
host reports zero addresses written. -/
theorem transfer_ignores_write_report_witness :
    transfer_marble false
        (setStateL [] (get_marble_address (strOf "m")) (strOf "m,red,5,alice"))
        [strOf "m", strOf "bob"]
      = .ok (setStateL
          (setStateL [] (get_marble_address (strOf "m"))
            (strOf "m,red,5,alice"))
          (get_marble_address (strOf "m"))
          (Marble.to_string ⟨strOf "m", strOf "red", 5, strOf "bob"⟩)) :=
  transfer_ignores_write_report.2.2
    (setStateL [] (get_marble_address (strOf "m")) (strOf "m,red,5,alice"))
    (strOf "m") (strOf "bob") (strOf "m,red,5,alice")
    ⟨strOf "m", strOf "red", 5, strOf "alice"⟩
    (getStateL_setStateL_self [] (get_marble_address (strOf "m"))
      (strOf "m,red,5,alice"))
    rfl

/-- C2 counterexample: the decode failure on a stored 3-field byte string
produces exactly the same error value (`InvalidTransaction` with message
`Invalid number of args`) as a bad-arity request does, so it is not
signaled distinctly; and an unparsable size field raises the builtin
`ValueError`, not a record-decoding transaction error. -/
theorem malformed_record_not_distinct_cex :
    Marble.ofArgs (splitComma (strOf "m,red,5"))
        = .error (.invalidTransaction (strOf "Invalid number of args"))
      ∧ transfer_marble true [] [strOf "m"]
        = .err (.invalidTransaction (strOf "Invalid number of args"))
      ∧ Marble.ofArgs (splitComma (strOf "m,red,x,alice"))
        = .error .valueError := by
  refine ⟨by decide, by decide, by decide⟩

/-- C2 (amended): decoding a stored byte string fails when the comma-split
field count differs from 4, raising the `InvalidTransaction` error with
the very message used for bad request arguments (not a distinct
`MalformedRecord`), and raises the builtin `ValueError` (not a transaction
error at all) when the size field does not parse as an integer. -/
theorem decode_failure_modes (fields : List Str) :
    (fields.length ≠ 4 →
      Marble.ofArgs fields
        = .error (.invalidTransaction (strOf "Invalid number of args")))
    ∧ (∀ n c s o, fields = [n, c, s, o] → pyInt s = none →
        Marble.ofArgs fields = .error .valueError)
    ∧ (∀ reportOk l args, args.length ≠ 1 →
        delete_marble reportOk l args
          = .err (.invalidTransaction (strOf "Invalid number of args"))) := by
  refine ⟨?_, ?_, ?_⟩
  · intro h
    match fields with
    | [] => rfl
    | [a] => rfl
    | [a, b] => rfl
    | [a, b, c] => rfl
    | [a, b, c, d] => simp at h
    | a :: b :: c :: d :: e :: rest => rfl
  · intro n c s o hf hp
    subst hf
    simp [Marble.ofArgs, hp]
  · intro reportOk l args hlen
    rw [delete_marble.eq_def, if_pos hlen]

/-- Witness for C2: the amended failure modes at concrete inputs. -/
theorem decode_failure_modes_witness :
    Marble.ofArgs [strOf "a"]
        = .error (.invalidTransaction (strOf "Invalid number of args"))
    ∧ Marble.ofArgs [strOf "a", strOf "b", strOf "x", strOf "d"]
        = .error .valueError
    ∧ delete_marble true [] []
        = .err (.invalidTransaction (strOf "Invalid number of args")) :=
  ⟨(decode_failure_modes [strOf "a"]).1 (by decide),
   (decode_failure_modes [strOf "a", strOf "b", strOf "x", strOf "d"]).2.1
     (strOf "a") (strOf "b") (strOf "x") (strOf "d") rfl (by decide),
   (decode_failure_modes []).2.2 true [] [] (by decide)⟩

set_option maxRecDepth 10000 in
/-- C3 counterexample: transferring the stored record `"m,red,007,alice"`
to `"bob"` writes `"m,red,7,bob"`, whereas replacing only the owner field
would give `"m,red,007,bob"` — the size portion of the stored byte string
is not byte-identical across the transfer. -/
theorem transfer_size_bytes_cex :
    transfer_marble true
        [(get_marble_address (strOf "m"), strOf "m,red,007,alice")]
        [strOf "m", strOf "bob"]
      = .ok [(get_marble_address (strOf "m"), strOf "m,red,7,bob")]
    ∧ strOf "m,red,7,bob" ≠ strOf "m,red,007,bob" := by
  refine ⟨by decide, by decide⟩

/-- C3 (amended): on an existing record that decodes (4 comma-separated
fields, integer-parsable size), transfer rewrites only the entry at the
derived address — the record stays at that address and every other
address is untouched — keeping the name and color portions byte-identical
and replacing the owner; the size portion is re-rendered as the canonical
decimal of its parsed value, hence byte-identical exactly when the stored
size bytes were already canonical. -/
theorem transfer_frame_effect (reportOk : Bool) (l : Ledger)
    (key owner2 s f0 f1 f2 f3 : Str) (v : Int)
    (hget : getStateL l (get_marble_address key) = [s])
    (hsplit : splitComma s = [f0, f1, f2, f3])
    (hint : pyInt f2 = some v) :
    s = f0 ++ ',' :: f1 ++ ',' :: f2 ++ ',' :: f3
    ∧ transfer_marble reportOk l [key, owner2]
        = .ok (setStateL l (get_marble_address key)
            (f0 ++ ',' :: f1 ++ ',' :: intToStr v ++ ',' :: owner2))
    ∧ getStateL (setStateL l (get_marble_address key)
          (f0 ++ ',' :: f1 ++ ',' :: intToStr v ++ ',' :: owner2))
        (get_marble_address key)
        = [f0 ++ ',' :: f1 ++ ',' :: intToStr v ++ ',' :: owner2]
    ∧ (∀ a, a ≠ get_marble_address key →
        lookupL (setStateL l (get_marble_address key)
            (f0 ++ ',' :: f1 ++ ',' :: intToStr v ++ ',' :: owner2)) a
          = lookupL l a)
    ∧ (intToStr v = f2 →
        f0 ++ ',' :: f1 ++ ',' :: intToStr v ++ ',' :: owner2
          = f0 ++ ',' :: f1 ++ ',' :: f2 ++ ',' :: owner2) := by
  refine ⟨?_, ?_, ?_, ?_, ?_⟩
  · rw [← joinComma_splitComma s, hsplit]
    simp [joinComma]
  · simp [transfer_marble, hget, hsplit, Marble.ofArgs, hint,
      Marble.to_string, joinComma]
  · exact getStateL_setStateL_self l (get_marble_address key) _
  · intro a ha
    exact lookupL_setStateL_ne l (get_marble_address key) _ a ha
  · intro h
    rw [h]

/-- Witness for C3 at the stored record `"m,red,5,alice"`. -/
theorem transfer_frame_effect_witness :
    strOf "m,red,5,alice"
        = strOf "m" ++ ',' :: strOf "red" ++ ',' :: strOf "5"
            ++ ',' :: strOf "alice"
    ∧ transfer_marble true
        (setStateL [] (get_marble_address (strOf "m")) (strOf "m,red,5,alice"))
        [strOf "m", strOf "bob"]
        = .ok (setStateL
            (setStateL [] (get_marble_address (strOf "m"))
              (strOf "m,red,5,alice"))
            (get_marble_address (strOf "m"))
            (strOf "m" ++ ',' :: strOf "red" ++ ',' :: intToStr 5
              ++ ',' :: strOf "bob"))
    ∧ getStateL (setStateL
          (setStateL [] (get_marble_address (strOf "m"))
            (strOf "m,red,5,alice"))
          (get_marble_address (strOf "m"))
          (strOf "m" ++ ',' :: strOf "red" ++ ',' :: intToStr 5
            ++ ',' :: strOf "bob"))
        (get_marble_address (strOf "m"))
        = [strOf "m" ++ ',' :: strOf "red" ++ ',' :: intToStr 5
            ++ ',' :: strOf "bob"]
    ∧ (∀ a, a ≠ get_marble_address (strOf "m") →
        lookupL (setStateL
            (setStateL [] (get_marble_address (strOf "m"))
              (strOf "m,red,5,alice"))
            (get_marble_address (strOf "m"))
            (strOf "m" ++ ',' :: strOf "red" ++ ',' :: intToStr 5
              ++ ',' :: strOf "bob")) a
          = lookupL (setStateL [] (get_marble_address (strOf "m"))
              (strOf "m,red,5,alice")) a)
    ∧ (intToStr 5 = strOf "5" →
        strOf "m" ++ ',' :: strOf "red" ++ ',' :: intToStr 5
            ++ ',' :: strOf "bob"
          = strOf "m" ++ ',' :: strOf "red" ++ ',' :: strOf "5"
            ++ ',' :: strOf "bob") :=
  transfer_frame_effect true
    (setStateL [] (get_marble_address (strOf "m")) (strOf "m,red,5,alice"))
    (strOf "m") (strOf "bob") (strOf "m,red,5,alice")
    (strOf "m") (strOf "red") (strOf "5") (strOf "alice") 5
    (getStateL_setStateL_self [] (get_marble_address (strOf "m"))
      (strOf "m,red,5,alice"))
    (by decide) (by decide)

set_option maxRecDepth 10000 in
/-- C1: the source's `_init_marble` performs no argument-count validation.
The concrete 3-argument init `("m", "red", "5")` is accepted on the empty
ledger and writes the 3-field record `"m,red,5"` — a record the
processor's own decoder rejects — where the claim (and the spec) say init
must fail with `InvalidArguments` and write nothing. -/
theorem init_no_arity_check :
    init_marble true [] [strOf "m", strOf "red", strOf "5"]
        = .ok [(get_marble_address (strOf "m"), strOf "m,red,5")]
    ∧ Marble.ofArgs (splitComma (strOf "m,red,5"))
        = .error (.invalidTransaction (strOf "Invalid number of args")) := by
  refine ⟨by decide, by decide⟩

set_option maxRecDepth 10000 in
/-- C8 counterexample: init accepts the 4-tuple
`("m", "red", "abc", "alice")` and writes it, but the immediately
following read raises `ValueError` instead of returning the fields passed
to init — encode followed by decode is not the identity on everything
init accepts. -/
theorem init_read_roundtrip_cex :
    init_marble true [] [strOf "m", strOf "red", strOf "abc", strOf "alice"]
        = .ok [(get_marble_address (strOf "m"), strOf "m,red,abc,alice")]
    ∧ read_marble
        [(get_marble_address (strOf "m"), strOf "m,red,abc,alice")]
        (strOf "m")
        = .err .valueError := by
  refine ⟨by decide, by decide⟩

/-- C8 (amended): for every 4-tuple of delimiter-free fields whose size
field is the canonical decimal rendering of an integer, an init (of a name
not yet present) followed immediately by a read of the same name returns
a record carrying exactly the fields passed to init, and re-encoding that
record reproduces the stored bytes (encode then decode is the identity on
such records). -/
theorem init_read_roundtrip (l : Ledger) (n c s o : Str) (v : Int)
    (hn : ',' ∉ n) (hc : ',' ∉ c) (hs : ',' ∉ s) (ho : ',' ∉ o)
    (hv : pyInt s = some v) (hcanon : intToStr v = s)
    (habs : getStateL l (get_marble_address n) = []) :
    init_marble true l [n, c, s, o]
        = .ok (setStateL l (get_marble_address n) (joinComma [n, c, s, o]))
    ∧ read_marble
        (setStateL l (get_marble_address n) (joinComma [n, c, s, o])) n
        = .found ⟨n, c, v, o⟩
    ∧ Marble.to_string ⟨n, c, v, o⟩ = joinComma [n, c, s, o] := by
  have hsp : splitComma (joinComma [n, c, s, o]) = [n, c, s, o] := by
    have hj : joinComma [n, c, s, o]
        = n ++ ',' :: (c ++ ',' :: (s ++ ',' :: o)) := by
      simp [joinComma]
    rw [hj, splitComma_append _ _ hn, splitComma_append _ _ hc,
      splitComma_append _ _ hs, splitComma_of_no_comma o ho]
  refine ⟨?_, ?_, ?_⟩
  · simp [init_marble, habs]
  · simp [read_marble, getStateL_setStateL_self, hsp, Marble.ofArgs, hv]
  · simp [Marble.to_string, hcanon, joinComma]

/-- Witness for C8 at the concrete init `("m", "red", "5", "alice")` on
the empty ledger. -/
theorem init_read_roundtrip_witness :
    init_marble true [] [strOf "m", strOf "red", strOf "5", strOf "alice"]
        = .ok (setStateL [] (get_marble_address (strOf "m"))
            (joinComma [strOf "m", strOf "red", strOf "5", strOf "alice"]))
    ∧ read_marble
        (setStateL [] (get_marble_address (strOf "m"))
          (joinComma [strOf "m", strOf "red", strOf "5", strOf "alice"]))
        (strOf "m")
        = .found ⟨strOf "m", strOf "red", 5, strOf "alice"⟩
    ∧ Marble.to_string ⟨strOf "m", strOf "red", 5, strOf "alice"⟩
        = joinComma [strOf "m", strOf "red", strOf "5", strOf "alice"] :=
  init_read_roundtrip [] (strOf "m") (strOf "red") (strOf "5")
    (strOf "alice") 5 (by decide) (by decide) (by decide) (by decide)
    (by decide) (by decide) rfl

set_option maxRecDepth 10000 in
/-- Sanity check of the hash embedding against the published SHA-512 test
vector for the message `"abc"`. -/
theorem sha512_test_vector_abc :
    sha512Hex (utf8Encode (strOf "abc"))
      = strOf ("ddaf35a193617abacc417349ae20413112e6fa4e89a97ea20a9eeee6" ++
          "4b55d39a2192992a274fc1a836ba3c23a3feebbd454d4423643ce80e2a9ac94fa54ca49f") := by
  decide

set_option maxRecDepth 10000 in
/-- Sanity check of the hash embedding against the published SHA-512 test
vector for the empty message. -/
theorem sha512_test_vector_empty :
    sha512Hex (utf8Encode (strOf ""))
      = strOf ("cf83e1357eefb8bdf1542850d66d8007d620e4050b5715dc83f4a921" ++
          "d36ce9ce47d0d13c5d85f2b0ff8318d2877eec2f63b931bd47417a81a538327af927da3e") := by
  decide
